import Mathlib

/-!
Verification of the Himeji YMCA kids photo-map clustering layer.

The definitions below are a shallow embedding of the marker/clustering code:
`MarkerManager` (createClusters, addAreaMarkers, createAreaMarker,
getResponsiveMarkerSize, shouldClusterMarkers), `DataManager.getPhotosInArea`,
and the legacy `PhotoMapApp` versions of getPhotosInArea,
getResponsiveMarkerSize and getRepresentativePhoto from constants.js.

JavaScript conventions are modelled explicitly:
* a possibly-undefined number is `Option ℚ`; `none` covers both `undefined`
  and `NaN` (both are falsy, both propagate through arithmetic, and both make
  every `<=` comparison false, which is exactly how the code uses them);
* truthiness of a number is "present and nonzero";
* `is_active` is `Option Bool`; the code tests either `=== false` or
  truthiness (`= some true`), and both tests are modelled verbatim;
* `calculateDistance` is the haversine formula over IEEE doubles
  (transcendental functions), so it is kept abstract as a parameter
  `d : ℚ → ℚ → ℚ → ℚ → ℚ`; every universally-quantified theorem holds for
  every distance function, hence for the haversine.  Concrete evaluations use
  `discreteDist`, which returns 0 on coincident points and 1000 otherwise,
  agreeing with the haversine comparisons at the sample coordinates used
  (coincident points are at distance exactly 0 even in floating point);
* `taken_at` timestamps are modelled as integers (`new Date` comparison of the
  stored ISO strings is order-isomorphic to epoch milliseconds).
-/

/-- Truthiness of a JS number value: present and nonzero. -/
def truthyQ : Option ℚ → Bool
  | none => false
  | some x => x ≠ 0

/-- Truthiness of a JS boolean value. -/
def truthyB : Option Bool → Bool
  | some true => true
  | _ => false

/-- JS `x || dflt` for a number `x` (falsy means absent or zero). -/
def jsOrQ (x : Option ℚ) (dflt : ℚ) : ℚ :=
  match x with
  | some v => if v ≠ 0 then v else dflt
  | none => dflt

/-- JS addition where an undefined/NaN operand poisons the result. -/
def jsAdd : Option ℚ → Option ℚ → Option ℚ
  | some x, some y => some (x + y)
  | _, _ => none

/-- JS `list.reduce((sum, a) => sum + a, 0)`. -/
def jsSum (l : List (Option ℚ)) : Option ℚ := l.foldl jsAdd (some 0)

/-- JS division of a possibly-poisoned sum by a list length.  At every call
site in the code the length is ≥ 2, so the `n = 0` case is unreachable. -/
def jsDivNat (o : Option ℚ) (n : ℕ) : Option ℚ := o.map (fun x => x / (n : ℚ))

/-- Abstract stand-in for `DataManager.calculateDistance` (haversine over
floating point).  All general theorems quantify over it. -/
def DistFn : Type := ℚ → ℚ → ℚ → ℚ → ℚ

/-- JS `calculateDistance(lat1, lng1, lat2, lng2) <= t` where any argument may
be undefined: an undefined argument yields NaN and the comparison is false. -/
def distLE (d : DistFn) (lat1 lng1 lat2 lng2 : Option ℚ) (t : ℚ) : Bool :=
  match lat1, lng1, lat2, lng2 with
  | some a, some b, some c, some e => decide (d a b c e ≤ t)
  | _, _, _, _ => false

/-- Photo record (fields used by the clustering layer). -/
structure Photo where
  id : String
  latitude : Option ℚ
  longitude : Option ℚ
  taken_at : ℤ
  view_count : Option ℤ
  is_featured : Option Bool
deriving DecidableEq, Repr, Inhabited

/-- Area record (fields used by the clustering layer). -/
structure Area where
  id : String
  name : String
  center_lat : Option ℚ
  center_lng : Option ℚ
  radius : Option ℚ
  is_active : Option Bool
deriving DecidableEq, Repr, Inhabited

/-- The duck-typed object `MarkerManager.createClusters` emits: either an
area spread with `isCluster: false` (the `areas`/`photos` fields are then
absent, modelled as `[]`) or a synthetic multi-member cluster object. -/
structure Cluster where
  id : String
  name : String
  center_lat : Option ℚ
  center_lng : Option ℚ
  radius : Option ℚ
  is_active : Option Bool
  isCluster : Bool
  areas : List Area
  photos : List Photo
deriving DecidableEq, Repr, Inhabited

/-- JS `{ ...area, isCluster: false }`. -/
def spreadArea (a : Area) : Cluster :=
  { id := a.id, name := a.name, center_lat := a.center_lat
    center_lng := a.center_lng, radius := a.radius, is_active := a.is_active
    isCluster := false, areas := [], photos := [] }

/-- The areas a cluster object stands for: its `areas` field when it is a
synthetic cluster, or the spread area itself when it is a singleton. -/
def memberAreas (c : Cluster) : List Area :=
  if c.isCluster then c.areas
  else [{ id := c.id, name := c.name, center_lat := c.center_lat
          center_lng := c.center_lng, radius := c.radius
          is_active := c.is_active }]

/-! ### Configuration constants (`APP_CONFIG` in constants.js) -/

def CLUSTER_DISTANCE_KM : ℚ := 2
def CLUSTER_ZOOM_THRESHOLD : ℚ := 12
def MAP_MIN_ZOOM : ℚ := 10
def MAP_MAX_ZOOM : ℚ := 18
def MARKER_MIN_SIZE : ℚ := 20
def MARKER_MAX_SIZE : ℚ := 50
def MARKER_SIZE_SCALE_FACTOR : ℚ := 3 / 2

/-! ### `DataManager.getPhotosInArea` and the legacy `PhotoMapApp` version -/

/-- `DataManager.getPhotosInArea`: bail out to `[]` when the area's center
coordinates are falsy, otherwise keep the photos within `area.radius || 1.0`
kilometres of the center (a photo with undefined coordinates gives a NaN
distance and is never kept). -/
def DataManager_getPhotosInArea (d : DistFn) (photos : List Photo)
    (center_lat center_lng radius : Option ℚ) : List Photo :=
  if truthyQ center_lat && truthyQ center_lng then
    photos.filter fun p =>
      distLE d p.latitude p.longitude center_lat center_lng (jsOrQ radius 1)
  else []

/-- `DataManager.getPhotosInArea` applied to an Area record. -/
def DataManager_getPhotosInAreaOf (d : DistFn) (photos : List Photo)
    (a : Area) : List Photo :=
  DataManager_getPhotosInArea d photos a.center_lat a.center_lng a.radius

/-- `DataManager.getPhotosInArea` applied to a cluster object. -/
def DataManager_getPhotosInAreaOfCluster (d : DistFn) (photos : List Photo)
    (c : Cluster) : List Photo :=
  DataManager_getPhotosInArea d photos c.center_lat c.center_lng c.radius

/-- `PhotoMapApp.getPhotosInArea` (constants.js): additionally requires a
truthy radius and truthy photo coordinates, and compares against the raw
radius value. -/
def PhotoMapApp_getPhotosInArea (d : DistFn) (photos : List Photo)
    (center_lat center_lng radius : Option ℚ) : List Photo :=
  if truthyQ center_lat && truthyQ center_lng && truthyQ radius then
    photos.filter fun p =>
      truthyQ p.latitude && truthyQ p.longitude &&
        distLE d p.latitude p.longitude center_lat center_lng (radius.getD 0)
  else []

/-! ### Marker sizing -/

/-- JS `Math.round x = ⌊x + 1/2⌋` (half-up), written through the numerator
and denominator so that it evaluates by kernel reduction.  `jsRound_eq_round`
below identifies it with Mathlib's `round`. -/
def jsRound (x : ℚ) : ℤ :=
  (2 * x.num + x.den).fdiv (2 * x.den)

/-- `MarkerManager.getResponsiveMarkerSize`: linear interpolation between
`MARKER.MIN_SIZE` and `MARKER.MAX_SIZE` over the zoom range
`[MAP.MIN_ZOOM, MAP.MAX_ZOOM]`, scaled by `SIZE_SCALE_FACTOR` for clusters,
then `Math.round`ed. -/
def MarkerManager_getResponsiveMarkerSize (zoom : ℚ) (isCluster : Bool) : ℤ :=
  let scaleFactor := (zoom - MAP_MIN_ZOOM) / (MAP_MAX_ZOOM - MAP_MIN_ZOOM)
  let dynamicSize := MARKER_MIN_SIZE + (MARKER_MAX_SIZE - MARKER_MIN_SIZE) * scaleFactor
  jsRound (if isCluster then dynamicSize * MARKER_SIZE_SCALE_FACTOR else dynamicSize)

/-- `PhotoMapApp.getResponsiveMarkerSize` (constants.js): stepped size table
keyed on zoom bands. -/
def PhotoMapApp_getResponsiveMarkerSize (zoom : ℚ) (isCluster : Bool) : ℤ :=
  if zoom ≤ 10 then (if isCluster then 16 else 12)
  else if zoom ≤ 12 then (if isCluster then 24 else 18)
  else if zoom ≤ 14 then (if isCluster then 36 else 30)
  else if zoom ≤ 16 then (if isCluster then 48 else 42)
  else (if isCluster then 60 else 54)

/-- Modelled from the spec: the banded step function described in §4
("Recommended bands"): `zoom ≤ 10 → 12–16px`, `10 < zoom ≤ 12 → 18–24px`,
`12 < zoom ≤ 14 → 30–36px`, `14 < zoom ≤ 16 → 42–48px`, `zoom > 16 →
54–60px`, non-cluster markers taking the lower bound of each band and
cluster markers the upper bound. -/
def markerSizeBandsSpec (zoom : ℚ) (isCluster : Bool) : ℤ :=
  if zoom ≤ 10 then (if isCluster then 16 else 12)
  else if 10 < zoom ∧ zoom ≤ 12 then (if isCluster then 24 else 18)
  else if 12 < zoom ∧ zoom ≤ 14 then (if isCluster then 36 else 30)
  else if 14 < zoom ∧ zoom ≤ 16 then (if isCluster then 48 else 42)
  else (if isCluster then 60 else 54)

/-! ### `PhotoMapApp.getRepresentativePhoto` -/

/-- JS `photo.view_count || 0` (an absent count reads as 0). -/
def viewOf (p : Photo) : ℤ := p.view_count.getD 0

/-- One step of a JS `reduce((best, photo) => m(photo) > m(best) ? photo :
best)` for a measure `m`. -/
def pickBy (m : Photo → ℤ) (best p : Photo) : Photo :=
  if m best < m p then p else best

/-- One step of `reduce((best, photo) => (photo.view_count || 0) >
(best.view_count || 0) ? photo : best)`. -/
def pickPopular : Photo → Photo → Photo := pickBy viewOf

/-- One step of `reduce((newest, photo) => new Date(photo.taken_at) >
new Date(newest.taken_at) ? photo : newest)`. -/
def pickNewest : Photo → Photo → Photo := pickBy Photo.taken_at

/-- `PhotoMapApp.getRepresentativePhoto`: null on an empty list; otherwise
prefer featured photos (reduced by view count), else reduce all photos by
view count and break view-count ties by the most recent `taken_at`.
JS `reduce` without an initial value folds from the first element. -/
def getRepresentativePhoto (photos : List Photo) : Option Photo :=
  match photos with
  | [] => none
  | p :: ps =>
    match (p :: ps).filter (fun q => truthyB q.is_featured) with
    | f :: fs => some (fs.foldl pickPopular f)
    | [] =>
      let popularPhoto := ps.foldl pickPopular p
      match (p :: ps).filter (fun q => viewOf q = viewOf popularPhoto) with
      | s :: ss => some (ss.foldl pickNewest s)
      | [] => none

/-! ### `MarkerManager` clustering -/

/-- `MarkerManager.shouldClusterMarkers`. -/
def shouldClusterMarkers (zoom : ℚ) : Bool :=
  zoom ≤ CLUSTER_ZOOM_THRESHOLD

/-- The `forEach((area, index) => ...)` index labelling. -/
def withIndices : ℕ → List Area → List (ℕ × Area)
  | _, [] => []
  | n, a :: l => (n, a) :: withIndices (n + 1) l

/-- The inner `forEach`: every other not-yet-processed area within
`CLUSTER_DISTANCE_KM` of the seed (an area with an undefined coordinate
yields a NaN distance and is never collected). -/
def nearbyOf (d : DistFn) (all : List (ℕ × Area)) (processed : List ℕ)
    (i : ℕ) (a : Area) : List (ℕ × Area) :=
  all.filter fun jb =>
    decide (jb.1 ≠ i) && decide (jb.1 ∉ processed) &&
      distLE d a.center_lat a.center_lng jb.2.center_lat jb.2.center_lng
        CLUSTER_DISTANCE_KM

/-- The synthetic cluster object built when `nearbyAreas.length > 1`:
`nearbyAreas = [area, ...collected]`, id joins the member ids in encounter
order, center is the reduced sum of member centers divided by the member
count, photos is the concatenation of every member's photos. -/
def mkClusterObj (d : DistFn) (photos : List Photo) (a : Area)
    (nearby : List Area) : Cluster :=
  let nearbyAreas := a :: nearby
  { id := "cluster_" ++ String.intercalate "_" (nearbyAreas.map Area.id)
    name := a.name ++ " エリア"
    center_lat := jsDivNat (jsSum (nearbyAreas.map Area.center_lat)) nearbyAreas.length
    center_lng := jsDivNat (jsSum (nearbyAreas.map Area.center_lng)) nearbyAreas.length
    radius := none
    is_active := some true
    isCluster := true
    areas := nearbyAreas
    photos := nearbyAreas.flatMap fun b => DataManager_getPhotosInAreaOf d photos b }

/-- One iteration of the outer `forEach` of `MarkerManager.createClusters`,
threading the mutable `clusters` array and `processed` set. -/
def clusterStep (d : DistFn) (photos : List Photo) (all : List (ℕ × Area))
    (st : List Cluster × List ℕ) (ia : ℕ × Area) : List Cluster × List ℕ :=
  if ia.1 ∈ st.2 then st
  else
    let nearby := nearbyOf d all st.2 ia.1 ia.2
    let processed := st.2 ++ ia.1 :: nearby.map Prod.fst
    if (ia.2 :: nearby.map Prod.snd).length > 1 then
      (st.1 ++ [mkClusterObj d photos ia.2 (nearby.map Prod.snd)], processed)
    else
      (st.1 ++ [spreadArea ia.2], processed)

/-- `MarkerManager.createClusters`: above the zoom threshold every area is
passed through as `{ ...area, isCluster: false }`; at or below it the greedy
grouping runs over the indexed area list. -/
def createClusters (d : DistFn) (photos : List Photo) (zoom : ℚ)
    (areas : List Area) : List Cluster :=
  if !shouldClusterMarkers zoom then areas.map spreadArea
  else
    let all := withIndices 0 areas
    (all.foldl (clusterStep d photos all) ([], [])).1

/-- The rendered marker for one cluster object. -/
structure Marker where
  cluster : Cluster
  photoCount : ℕ
  size : ℤ
deriving DecidableEq, Repr

/-- `MarkerManager.createAreaMarker`: skip when a center coordinate is falsy
or `is_active === false`; otherwise build the marker with the
zoom-responsive size. -/
def createAreaMarker (zoom : ℚ) (c : Cluster) (photoCount : ℕ) : Option Marker :=
  if !truthyQ c.center_lat || !truthyQ c.center_lng || c.is_active == some false then
    none
  else
    some { cluster := c, photoCount := photoCount
           size := MarkerManager_getResponsiveMarkerSize zoom c.isCluster }

/-- The body of the `for (const cluster of clusters)` loop in
`MarkerManager.addAreaMarkers`: fetch the cluster's photos and create a marker
when there is at least one. -/
def markerFor (d : DistFn) (photos : List Photo) (zoom : ℚ)
    (c : Cluster) : Option Marker :=
  let photosInArea :=
    if c.isCluster then c.photos else DataManager_getPhotosInAreaOfCluster d photos c
  if photosInArea.length > 0 then createAreaMarker zoom c photosInArea.length
  else none

/-- `MarkerManager.addAreaMarkers`: cluster the areas, then create a marker
for every cluster object with a nonzero photo count. -/
def addAreaMarkers (d : DistFn) (photos : List Photo) (zoom : ℚ)
    (areas : List Area) : List Marker :=
  (createClusters d photos zoom areas).filterMap (markerFor d photos zoom)

/-- Concrete distance function used for closed evaluations: 0 on coincident
points, 1000 km otherwise.  It agrees with the haversine on every comparison
the closed samples below perform (all compared point pairs coincide). -/
def discreteDist : DistFn := fun lat1 lng1 lat2 lng2 =>
  if lat1 = lat2 ∧ lng1 = lng2 then 0 else 1000

/-! ### Concrete sample records used in closed evaluations -/

/-- An active area at (35, 134) with a 1 km radius. -/
def areaA : Area :=
  { id := "a1", name := "A1", center_lat := some 35, center_lng := some 134
    radius := some 1, is_active := some true }

/-- A second active area at the same point. -/
def areaB : Area :=
  { id := "a2", name := "A2", center_lat := some 35, center_lng := some 134
    radius := some 1, is_active := some true }

/-- An inactive area at the same point. -/
def areaInactive : Area :=
  { id := "x1", name := "X1", center_lat := some 35, center_lng := some 134
    radius := some 1, is_active := some false }

/-- An active area at (35, 134) with radius 0. -/
def areaZeroRadius : Area :=
  { id := "z1", name := "Z1", center_lat := some 35, center_lng := some 134
    radius := some 0, is_active := some true }

/-- An active area with an undefined `center_lat`. -/
def areaNoLat : Area :=
  { id := "m1", name := "M1", center_lat := none, center_lng := some 134
    radius := some 1, is_active := some true }

/-- An active area whose `center_lat` is exactly 0. -/
def areaLatZero : Area :=
  { id := "e1", name := "E1", center_lat := some 0, center_lng := some 134
    radius := some 1, is_active := some true }

/-- A photo taken at (35, 134). -/
def photoAt : Photo :=
  { id := "p1", latitude := some 35, longitude := some 134, taken_at := 100
    view_count := some 3, is_featured := some false }

/-- The three photos of the spec's P6 tie-break example, in its order. -/
def photoViews10 : Photo :=
  { id := "v10", latitude := some 35, longitude := some 134, taken_at := 10
    view_count := some 10, is_featured := some false }

def photoFeat1 : Photo :=
  { id := "f1", latitude := some 35, longitude := some 134, taken_at := 20
    view_count := some 1, is_featured := some true }

def photoFeat5 : Photo :=
  { id := "f5", latitude := some 35, longitude := some 134, taken_at := 30
    view_count := some 5, is_featured := some true }

/-- The condition under which the refactored pipeline renders a marker for a
stand-alone area: a nonzero photo count, truthy center coordinates, and
`is_active !== false`. -/
def rendersMarker (d : DistFn) (ph : List Photo) (a : Area) : Prop :=
  0 < (DataManager_getPhotosInAreaOf d ph a).length ∧
  truthyQ a.center_lat = true ∧ truthyQ a.center_lng = true ∧
  a.is_active ≠ some false

instance (d : DistFn) (ph : List Photo) (a : Area) :
    Decidable (rendersMarker d ph a) := by
  unfold rendersMarker
  infer_instance

/-- The marker rendered for a stand-alone area. -/
def markerOfArea (d : DistFn) (ph : List Photo) (zoom : ℚ) (a : Area) :
    Marker :=
  { cluster := spreadArea a
    photoCount := (DataManager_getPhotosInAreaOf d ph a).length
    size := MarkerManager_getResponsiveMarkerSize zoom false }

/-! ## Theorems -/

/-- `jsRound` is Mathlib's `round` on ℚ. -/
theorem jsRound_eq_round (x : ℚ) : jsRound x = round x := by
  have hden0 : ((x.den : ℚ)) ≠ 0 := Nat.cast_ne_zero.mpr x.den_nz
  have hq : x + 1 / 2 =
      ((2 * x.num + (x.den : ℤ) : ℤ) : ℚ) / (((2 * x.den : ℕ) : ℕ) : ℚ) := by
    conv_lhs => rw [← Rat.num_div_den x]
    push_cast
    field_simp
    ring
  rw [round_eq, hq, Rat.floor_intCast_div_natCast, jsRound,
    Int.fdiv_eq_ediv _ (by positivity)]
  push_cast
  ring_nf

/-- `jsRound` is monotone. -/
theorem jsRound_mono {x y : ℚ} (h : x ≤ y) : jsRound x ≤ jsRound y := by
  rw [jsRound_eq_round, jsRound_eq_round, round_eq, round_eq]
  exact Int.floor_le_floor (by linarith)

/-- A falsy `radius` value reads as the default 1.0 through `||`. -/
theorem jsOrQ_of_falsy {r : Option ℚ} (hr : truthyQ r = false) (dflt : ℚ) :
    jsOrQ r dflt = dflt := by
  cases r with
  | none => rfl
  | some v =>
    simp only [truthyQ, decide_eq_false_iff_not, not_not] at hr
    simp [jsOrQ, hr]

unseal Rat.mul Rat.add Rat.inv Rat.sub in
/-- C5: the claim reads the banded step table (12/16, 18/24, 30/36, 42/48,
54/60 px) as the behavior of the repository's marker sizing, but the cited
`MarkerManager.getResponsiveMarkerSize` is a linear interpolation: at zoom 10
it returns 20 px for a non-cluster marker (the claim says 12) and 30 px for a
cluster marker (the claim says 16). -/
theorem C5_counterexample :
    MarkerManager_getResponsiveMarkerSize 10 false = 20 ∧ (20 : ℤ) ≠ 12 ∧
    MarkerManager_getResponsiveMarkerSize 10 true = 30 ∧ (30 : ℤ) ≠ 16 := by
  decide

/-- C5 (amended): the banded step function described by the claim is exactly
`PhotoMapApp.getResponsiveMarkerSize` in constants.js; the other cited
implementation, `MarkerManager.getResponsiveMarkerSize`, is a rounded linear
interpolation instead. -/
theorem C5_photoMapApp_is_band_table :
    ∀ zoom isCluster,
      PhotoMapApp_getResponsiveMarkerSize zoom isCluster =
        markerSizeBandsSpec zoom isCluster := by
  intro z c
  by_cases h1 : z ≤ 10
  · simp [PhotoMapApp_getResponsiveMarkerSize, markerSizeBandsSpec, h1]
  · have h1' : 10 < z := not_le.mp h1
    by_cases h2 : z ≤ 12
    · simp [PhotoMapApp_getResponsiveMarkerSize, markerSizeBandsSpec, h1, h1', h2]
    · have h2' : 12 < z := not_le.mp h2
      by_cases h3 : z ≤ 14
      · simp [PhotoMapApp_getResponsiveMarkerSize, markerSizeBandsSpec,
          h1, h2, h2', h3, not_and]
      · have h3' : 14 < z := not_le.mp h3
        by_cases h4 : z ≤ 16
        · simp [PhotoMapApp_getResponsiveMarkerSize, markerSizeBandsSpec,
            h1, h2, h3, h3', h4, not_and]
        · simp [PhotoMapApp_getResponsiveMarkerSize, markerSizeBandsSpec,
            h1, h2, h3, h4, not_and]

set_option maxHeartbeats 1000000 in
/-- C6: both marker-size implementations are monotonically non-decreasing in
zoom for a fixed cluster flag, and identical inputs give identical outputs. -/
theorem C6_markerSize_monotone (z1 z2 : ℚ) (c : Bool) (h : z1 ≤ z2) :
    MarkerManager_getResponsiveMarkerSize z1 c ≤
        MarkerManager_getResponsiveMarkerSize z2 c ∧
    PhotoMapApp_getResponsiveMarkerSize z1 c ≤
        PhotoMapApp_getResponsiveMarkerSize z2 c ∧
    (z1 = z2 →
      MarkerManager_getResponsiveMarkerSize z1 c =
          MarkerManager_getResponsiveMarkerSize z2 c ∧
      PhotoMapApp_getResponsiveMarkerSize z1 c =
          PhotoMapApp_getResponsiveMarkerSize z2 c) := by
  refine ⟨?_, ?_, ?_⟩
  · cases c <;>
      · simp only [MarkerManager_getResponsiveMarkerSize, MAP_MIN_ZOOM,
          MAP_MAX_ZOOM, MARKER_MIN_SIZE, MARKER_MAX_SIZE,
          MARKER_SIZE_SCALE_FACTOR, Bool.false_eq_true, if_false, if_true]
        exact jsRound_mono (by linarith)
  · cases c <;>
      · simp only [PhotoMapApp_getResponsiveMarkerSize]
        split_ifs <;> try contradiction
        all_goals try norm_num
        all_goals linarith
  · rintro rfl
    exact ⟨rfl, rfl⟩

/-- C6 witness at zoom 11 ≤ 13, cluster flag true. -/
theorem C6_markerSize_monotone_witness :
    (11 : ℚ) ≤ 13 ∧
    (MarkerManager_getResponsiveMarkerSize 11 true ≤
        MarkerManager_getResponsiveMarkerSize 13 true ∧
      PhotoMapApp_getResponsiveMarkerSize 11 true ≤
          PhotoMapApp_getResponsiveMarkerSize 13 true ∧
      ((11 : ℚ) = 13 →
        MarkerManager_getResponsiveMarkerSize 11 true =
            MarkerManager_getResponsiveMarkerSize 13 true ∧
        PhotoMapApp_getResponsiveMarkerSize 11 true =
            PhotoMapApp_getResponsiveMarkerSize 13 true)) :=
  ⟨by norm_num, C6_markerSize_monotone 11 13 true (by norm_num)⟩

unseal Rat.mul Rat.add Rat.inv Rat.sub in
/-- C7: the claim says a zero/undefined-radius area matches no photos and is
dropped, but the cited `DataManager.getPhotosInArea` substitutes the default
radius 1.0 km (`area.radius || 1.0`): an area with `radius = 0` and a photo at
its center keeps the photo, and the refactored pipeline renders a marker for
that area. -/
theorem C7_counterexample :
    areaZeroRadius.radius = some 0 ∧
    DataManager_getPhotosInAreaOf discreteDist [photoAt] areaZeroRadius =
      [photoAt] ∧
    (addAreaMarkers discreteDist [photoAt] 13 [areaZeroRadius]).length = 1 := by
  decide

/-- C7 (amended): the legacy `PhotoMapApp.getPhotosInArea` does return `[]`
for a falsy radius, while `DataManager.getPhotosInArea` instead behaves as if
the radius were 1.0 km. -/
theorem C7_falsy_radius (d : DistFn) (photos : List Photo)
    (clat clng r : Option ℚ) (hr : truthyQ r = false) :
    PhotoMapApp_getPhotosInArea d photos clat clng r = [] ∧
    DataManager_getPhotosInArea d photos clat clng r =
      DataManager_getPhotosInArea d photos clat clng (some 1) := by
  have hone : jsOrQ (some 1) 1 = 1 := by norm_num [jsOrQ]
  constructor
  · simp [PhotoMapApp_getPhotosInArea, hr]
  · simp only [DataManager_getPhotosInArea, jsOrQ_of_falsy hr, hone]

/-- C7 witness: radius `some 0` with a photo at the area center. -/
theorem C7_falsy_radius_witness :
    truthyQ (some 0) = false ∧
    (PhotoMapApp_getPhotosInArea discreteDist [photoAt] (some 35) (some 134)
        (some 0) = [] ∧
      DataManager_getPhotosInArea discreteDist [photoAt] (some 35) (some 134)
          (some 0) =
        DataManager_getPhotosInArea discreteDist [photoAt] (some 35) (some 134)
          (some 1)) :=
  ⟨by decide,
    C7_falsy_radius discreteDist [photoAt] (some 35) (some 134) (some 0)
      (by decide)⟩

/-- C10: a center coordinate that is exactly 0 is falsy, so the validity
checks treat it like a missing coordinate: both `getPhotosInArea`
implementations return `[]`, and `createAreaMarker` skips the (spread) area,
creating no marker for it. -/
theorem C10_zero_coordinate_like_missing (d : DistFn) (photos : List Photo)
    (zoom : ℚ) (n : ℕ) (a : Area)
    (h : a.center_lat = some 0 ∨ a.center_lat = none ∨
         a.center_lng = some 0 ∨ a.center_lng = none) :
    DataManager_getPhotosInAreaOf d photos a = [] ∧
    PhotoMapApp_getPhotosInArea d photos a.center_lat a.center_lng a.radius
      = [] ∧
    createAreaMarker zoom (spreadArea a) n = none := by
  have hfalsy : truthyQ a.center_lat = false ∨ truthyQ a.center_lng = false := by
    rcases h with h | h | h | h <;> simp [h, truthyQ]
  refine ⟨?_, ?_, ?_⟩
  · rcases hfalsy with h' | h' <;>
      simp [DataManager_getPhotosInAreaOf, DataManager_getPhotosInArea, h']
  · rcases hfalsy with h' | h' <;> simp [PhotoMapApp_getPhotosInArea, h']
  · rcases hfalsy with h' | h' <;> simp [createAreaMarker, spreadArea, h']

/-- C10 witness: an area whose `center_lat` is exactly 0. -/
theorem C10_zero_coordinate_witness :
    (areaLatZero.center_lat = some 0 ∨ areaLatZero.center_lat = none ∨
       areaLatZero.center_lng = some 0 ∨ areaLatZero.center_lng = none) ∧
    (DataManager_getPhotosInAreaOf discreteDist [photoAt] areaLatZero = [] ∧
      PhotoMapApp_getPhotosInArea discreteDist [photoAt] areaLatZero.center_lat
          areaLatZero.center_lng areaLatZero.radius = [] ∧
      createAreaMarker 13 (spreadArea areaLatZero) 5 = none) :=
  ⟨by decide,
    C10_zero_coordinate_like_missing discreteDist [photoAt] 13 5 areaLatZero
      (by decide)⟩

/-! ### Representative-photo lemmas (C8) -/

theorem pickBy_eq_or (f : Photo → ℤ) (b p : Photo) :
    pickBy f b p = b ∨ pickBy f b p = p := by
  unfold pickBy; split
  · right; rfl
  · left; rfl

theorem le_pickBy_left (f : Photo → ℤ) (b p : Photo) :
    f b ≤ f (pickBy f b p) := by
  unfold pickBy; split
  · exact le_of_lt (by assumption)
  · exact le_refl _

theorem le_pickBy_right (f : Photo → ℤ) (b p : Photo) :
    f p ≤ f (pickBy f b p) := by
  unfold pickBy; split
  · exact le_refl _
  · exact le_of_not_lt (by assumption)

theorem foldl_pickBy_mem (f : Photo → ℤ) (ps : List Photo) (b : Photo) :
    ps.foldl (pickBy f) b ∈ b :: ps := by
  induction ps generalizing b with
  | nil => simp
  | cons p ps ih =>
    rw [List.foldl_cons]
    rcases List.mem_cons.mp (ih (pickBy f b p)) with h1 | h1
    · rw [h1]
      rcases pickBy_eq_or f b p with h2 | h2 <;> rw [h2] <;> simp
    · simp [h1]

theorem foldl_pickBy_ge_init (f : Photo → ℤ) (ps : List Photo) (b : Photo) :
    f b ≤ f (ps.foldl (pickBy f) b) := by
  induction ps generalizing b with
  | nil => simp
  | cons p ps ih =>
    rw [List.foldl_cons]
    exact le_trans (le_pickBy_left f b p) (ih (pickBy f b p))

theorem foldl_pickBy_ge (f : Photo → ℤ) (ps : List Photo) (b : Photo)
    (q : Photo) (hq : q ∈ b :: ps) : f q ≤ f (ps.foldl (pickBy f) b) := by
  induction ps generalizing b with
  | nil =>
    rw [List.mem_singleton] at hq
    subst hq
    simp
  | cons p ps ih =>
    rw [List.foldl_cons]
    rcases List.mem_cons.mp hq with rfl | hq'
    · exact le_trans (le_pickBy_left f q p) (foldl_pickBy_ge_init f ps _)
    · rcases List.mem_cons.mp hq' with rfl | hq''
      · exact le_trans (le_pickBy_right f b q) (foldl_pickBy_ge_init f ps _)
      · exact ih (pickBy f b p) (List.mem_cons_of_mem _ hq'')

/-- C8: `getRepresentativePhoto` returns `none` on an empty list; on a
non-empty list the result is a member that is featured with maximal view
count among featured photos when any featured photo exists, and otherwise has
maximal view count overall with the most recent `taken_at` among the photos
tied at that view count; on the spec's P6 example it returns the featured
entry with 5 views. -/
theorem C8_representativePhoto_policy :
    (getRepresentativePhoto [] = none) ∧
    (∀ photos p, getRepresentativePhoto photos = some p →
      p ∈ photos ∧
      ((∃ q ∈ photos, truthyB q.is_featured) →
        truthyB p.is_featured = true ∧
        ∀ q ∈ photos, truthyB q.is_featured → viewOf q ≤ viewOf p) ∧
      ((∀ q ∈ photos, truthyB q.is_featured = false) →
        (∀ q ∈ photos, viewOf q ≤ viewOf p) ∧
        (∀ q ∈ photos, viewOf q = viewOf p → q.taken_at ≤ p.taken_at))) ∧
    getRepresentativePhoto [photoViews10, photoFeat1, photoFeat5] =
      some photoFeat5 := by
  refine ⟨rfl, ?_, by decide⟩
  intro photos p hp
  cases photos with
  | nil => simp [getRepresentativePhoto] at hp
  | cons p0 ps =>
    rw [getRepresentativePhoto] at hp
    rcases hf : (p0 :: ps).filter (fun q => truthyB q.is_featured) with _ | ⟨f, fs⟩
    · rw [hf] at hp
      dsimp only at hp
      rcases hs : (p0 :: ps).filter
          (fun q => viewOf q = viewOf (ps.foldl pickPopular p0)) with _ | ⟨s, ss⟩
      · exfalso
        have hpop := foldl_pickBy_mem viewOf ps p0
        have : (ps.foldl pickPopular p0) ∈
            (p0 :: ps).filter (fun q => viewOf q = viewOf (ps.foldl pickPopular p0)) := by
          rw [List.mem_filter]
          exact ⟨hpop, by simp⟩
        rw [hs] at this
        exact List.not_mem_nil _ this
      · rw [hs] at hp
        simp only [Option.some.injEq] at hp
        subst hp
        have hmem : (ss.foldl pickNewest s) ∈ s :: ss := foldl_pickBy_mem Photo.taken_at ss s
        have hmemf : (ss.foldl pickNewest s) ∈ (p0 :: ps).filter
            (fun q => viewOf q = viewOf (ps.foldl pickPopular p0)) := by
          rw [hs]; exact hmem
        rw [List.mem_filter] at hmemf
        have hview : viewOf (ss.foldl pickNewest s) = viewOf (ps.foldl pickPopular p0) := by
          have := hmemf.2; simpa using this
        refine ⟨hmemf.1, ?_, ?_⟩
        · rintro ⟨q, hq, hqf⟩
          exfalso
          have : q ∈ (p0 :: ps).filter (fun q => truthyB q.is_featured) := by
            rw [List.mem_filter]; exact ⟨hq, hqf⟩
          rw [hf] at this
          exact List.not_mem_nil _ this
        · intro _
          constructor
          · intro q hq
            rw [hview]
            exact foldl_pickBy_ge viewOf ps p0 q hq
          · intro q hq hqv
            have hqs : q ∈ s :: ss := by
              rw [← hs, List.mem_filter]
              refine ⟨hq, by simp [hqv, hview]⟩
            exact foldl_pickBy_ge Photo.taken_at ss s q hqs
    · rw [hf] at hp
      dsimp only at hp
      simp only [Option.some.injEq] at hp
      subst hp
      have hmem : (fs.foldl pickPopular f) ∈ f :: fs := foldl_pickBy_mem viewOf fs f
      have hmemf : (fs.foldl pickPopular f) ∈ (p0 :: ps).filter
          (fun q => truthyB q.is_featured) := by
        rw [hf]; exact hmem
      rw [List.mem_filter] at hmemf
      refine ⟨hmemf.1, ?_, ?_⟩
      · intro _
        refine ⟨by simpa using hmemf.2, ?_⟩
        intro q hq hqf
        have hqs : q ∈ f :: fs := by
          rw [← hf, List.mem_filter]; exact ⟨hq, by simp [hqf]⟩
        exact foldl_pickBy_ge viewOf fs f q hqs
      · intro hnone
        exfalso
        have hfmem : f ∈ (p0 :: ps).filter (fun q => truthyB q.is_featured) := by
          rw [hf]; simp
        rw [List.mem_filter] at hfmem
        have := hnone f hfmem.1
        simp [this] at hfmem

/-- C8 witness: the P6 example instantiated through the policy theorem. -/
theorem C8_representativePhoto_witness :
    getRepresentativePhoto [photoViews10, photoFeat1, photoFeat5] =
        some photoFeat5 ∧
    photoFeat5 ∈ [photoViews10, photoFeat1, photoFeat5] ∧
    truthyB photoFeat5.is_featured = true ∧
    viewOf photoFeat1 ≤ viewOf photoFeat5 :=
  ⟨C8_representativePhoto_policy.2.2,
    (C8_representativePhoto_policy.2.1 [photoViews10, photoFeat1, photoFeat5]
        photoFeat5 (by decide)).1,
    ((C8_representativePhoto_policy.2.1 [photoViews10, photoFeat1, photoFeat5]
        photoFeat5 (by decide)).2.1 (by decide)).1,
    ((C8_representativePhoto_policy.2.1 [photoViews10, photoFeat1, photoFeat5]
        photoFeat5 (by decide)).2.1 (by decide)).2 photoFeat1 (by decide)
      (by decide)⟩

/-! ### Clustering lemmas and theorems (C1–C4, C9) -/

theorem memberAreas_spreadArea (a : Area) : memberAreas (spreadArea a) = [a] := rfl

theorem memberAreas_mkClusterObj (d : DistFn) (ph : List Photo) (a : Area)
    (ns : List Area) : memberAreas (mkClusterObj d ph a ns) = a :: ns := rfl

theorem clusterStep_acc (d : DistFn) (ph : List Photo) (all : List (ℕ × Area))
    (st : List Cluster × List ℕ) (ia : ℕ × Area) :
    clusterStep d ph all st ia =
      (st.1 ++ (clusterStep d ph all ([], st.2) ia).1,
       (clusterStep d ph all ([], st.2) ia).2) := by
  by_cases h : ia.1 ∈ st.2
  · simp [clusterStep, h]
  · simp only [clusterStep, h, if_false, ite_false, List.nil_append]
    split_ifs <;> simp

theorem foldl_clusterStep_acc (d : DistFn) (ph : List Photo)
    (all : List (ℕ × Area)) (rest : List (ℕ × Area)) :
    ∀ (cs : List Cluster) (P : List ℕ),
      rest.foldl (clusterStep d ph all) (cs, P) =
        (cs ++ (rest.foldl (clusterStep d ph all) ([], P)).1,
         (rest.foldl (clusterStep d ph all) ([], P)).2) := by
  induction rest with
  | nil => intro cs P; simp
  | cons x rest ih =>
    intro cs P
    rw [List.foldl_cons, List.foldl_cons, clusterStep_acc d ph all (cs, P) x]
    dsimp only
    rw [ih (cs ++ (clusterStep d ph all ([], P) x).1)
      (clusterStep d ph all ([], P) x).2]
    conv_rhs =>
      rw [show clusterStep d ph all ([], P) x =
        ((clusterStep d ph all ([], P) x).1,
         (clusterStep d ph all ([], P) x).2) from rfl]
    rw [ih (clusterStep d ph all ([], P) x).1 (clusterStep d ph all ([], P) x).2]
    simp [List.append_assoc]

theorem withIndices_append (l1 l2 : List Area) :
    ∀ n, withIndices n (l1 ++ l2) =
      withIndices n l1 ++ withIndices (n + l1.length) l2 := by
  induction l1 with
  | nil => intro n; simp [withIndices]
  | cons a l1 ih =>
    intro n
    have harith : n + 1 + l1.length = n + (a :: l1).length := by
      simp only [List.length_cons]; omega
    calc withIndices n ((a :: l1) ++ l2)
        = (n, a) :: withIndices (n + 1) (l1 ++ l2) := rfl
      _ = (n, a) :: (withIndices (n + 1) l1 ++ withIndices (n + 1 + l1.length) l2) := by
          rw [ih]
      _ = withIndices n (a :: l1) ++ withIndices (n + (a :: l1).length) l2 := by
          rw [harith]
          rfl

theorem map_fst_withIndices (l : List Area) :
    ∀ n, (withIndices n l).map Prod.fst = List.range' n l.length := by
  induction l with
  | nil => intro n; simp [withIndices]
  | cons a l ih => intro n; simp [withIndices, List.range'_succ, ih]

theorem map_snd_withIndices (l : List Area) :
    ∀ n, (withIndices n l).map Prod.snd = l := by
  induction l with
  | nil => intro n; simp [withIndices]
  | cons a l ih => intro n; simp [withIndices, ih]

theorem nodup_map_fst_withIndices (l : List Area) (n : ℕ) :
    ((withIndices n l).map Prod.fst).Nodup := by
  rw [map_fst_withIndices]
  apply List.nodup_range'
  norm_num

theorem clusters_members_perm_aux (d : DistFn) (ph : List Photo)
    (all : List (ℕ × Area)) (hnd : (all.map Prod.fst).Nodup) :
    ∀ (rest pre : List (ℕ × Area)) (P : List ℕ),
      all = pre ++ rest →
      (∀ x ∈ pre, x.1 ∈ P) →
      ((rest.foldl (clusterStep d ph all) ([], P)).1.flatMap memberAreas).Perm
        ((rest.filter (fun x => decide (x.1 ∉ P))).map Prod.snd) := by
  intro rest
  induction rest with
  | nil => intro pre P hall hpre; simp
  | cons ia rest' ih =>
    intro pre P hall hpre
    obtain ⟨i, a⟩ := ia
    -- i appears nowhere else in `all`
    have hnd2 : (pre.map Prod.fst ++ i :: rest'.map Prod.fst).Nodup := by
      have : all.map Prod.fst = pre.map Prod.fst ++ i :: rest'.map Prod.fst := by
        rw [hall, List.map_append]; rfl
      rw [← this]; exact hnd
    have hirest : i ∉ rest'.map Prod.fst := by
      have h1 := hnd2.of_append_right
      rw [List.nodup_cons] at h1
      exact h1.1
    have hfstnd : (rest'.map Prod.fst).Nodup := by
      have h1 := hnd2.of_append_right
      rw [List.nodup_cons] at h1
      exact h1.2
    have hne : ∀ x ∈ rest', x.1 ≠ i := by
      intro x hx hxi
      exact hirest (hxi ▸ List.mem_map_of_mem Prod.fst hx)
    by_cases hi : i ∈ P
    · rw [List.foldl_cons]
      have hstep : clusterStep d ph all ([], P) (i, a) = ([], P) := by
        simp [clusterStep, hi]
      have hfilter : ((i, a) :: rest').filter (fun x => decide (x.1 ∉ P)) =
          rest'.filter (fun x => decide (x.1 ∉ P)) := by
        rw [List.filter_cons]
        simp [hi]
      rw [hstep, hfilter]
      refine ih (pre ++ [(i, a)]) P ?_ ?_
      · rw [hall, List.append_assoc]; rfl
      · intro x hx
        rcases List.mem_append.mp hx with h | h
        · exact hpre x h
        · rw [List.mem_singleton] at h; subst h; exact hi
    · -- seed case
      have hq : nearbyOf d all P i a =
          rest'.filter (fun x => decide (x.1 ∉ P) &&
            distLE d a.center_lat a.center_lng x.2.center_lat x.2.center_lng
              CLUSTER_DISTANCE_KM) := by
        unfold nearbyOf
        rw [hall, List.filter_append, List.filter_cons]
        have hpre0 : pre.filter (fun jb => decide (jb.1 ≠ i) &&
            decide (jb.1 ∉ P) &&
              distLE d a.center_lat a.center_lng jb.2.center_lat
                jb.2.center_lng CLUSTER_DISTANCE_KM) = [] := by
          rw [List.filter_eq_nil_iff]
          intro x hx
          simp [hpre x hx]
        have hself : (decide ((i, a).1 ≠ i) &&
            decide ((i, a).1 ∉ P) &&
              distLE d a.center_lat a.center_lng (i, a).2.center_lat
                (i, a).2.center_lng CLUSTER_DISTANCE_KM) = false := by
          simp
        rw [hpre0, hself]
        simp only [List.nil_append, if_false, Bool.false_eq_true]
        exact List.filter_congr fun x hx => by simp [hne x hx]
      set nb := nearbyOf d all P i a with hnbdef
      obtain ⟨e, he, hstep⟩ : ∃ e, memberAreas e = a :: nb.map Prod.snd ∧
          clusterStep d ph all ([], P) (i, a) =
            ([e], P ++ i :: nb.map Prod.fst) := by
        by_cases hlen : (a :: nb.map Prod.snd).length > 1
        · refine ⟨mkClusterObj d ph a (nb.map Prod.snd), rfl, ?_⟩
          unfold clusterStep
          dsimp only
          rw [← hnbdef, if_neg hi, if_pos hlen]
          rfl
        · have hnbnil : nb.map Prod.snd = [] := by
            rcases hmap : nb.map Prod.snd with _ | ⟨y, ys⟩
            · rfl
            · exfalso; rw [hmap] at hlen; simp at hlen
          refine ⟨spreadArea a, by rw [hnbnil]; rfl, ?_⟩
          unfold clusterStep
          dsimp only
          rw [← hnbdef, if_neg hi, if_neg hlen]
          rfl
      rw [List.foldl_cons, hstep, foldl_clusterStep_acc]
      have hgoalL : (([e] ++ (rest'.foldl (clusterStep d ph all)
            ([], P ++ i :: nb.map Prod.fst)).1).flatMap memberAreas) =
          (a :: nb.map Prod.snd) ++
            ((rest'.foldl (clusterStep d ph all)
              ([], P ++ i :: nb.map Prod.fst)).1.flatMap memberAreas) := by
        rw [List.flatMap_append, List.flatMap_cons, he]
        simp
      rw [hgoalL]
      have hfilterR : (((i, a) :: rest').filter
            (fun x => decide (x.1 ∉ P))).map Prod.snd =
          a :: (rest'.filter (fun x => decide (x.1 ∉ P))).map Prod.snd := by
        rw [List.filter_cons]
        simp [hi]
      rw [hfilterR]
      rw [List.cons_append]
      refine List.Perm.cons a ?_
      -- IH for the tail
      have hrec := ih (pre ++ [(i, a)]) (P ++ i :: nb.map Prod.fst)
        (by rw [hall, List.append_assoc]; rfl)
        (by intro x hx
            rcases List.mem_append.mp hx with h | h
            · exact List.mem_append_left _ (hpre x h)
            · rw [List.mem_singleton] at h; subst h
              exact List.mem_append_right _ (List.mem_cons_self _ _))
      -- characterize membership in P' for elements of rest'
      have hP' : ∀ x ∈ rest', (decide (x.1 ∉ P ++ i :: nb.map Prod.fst)) =
          (decide (x.1 ∉ P) &&
            !(distLE d a.center_lat a.center_lng x.2.center_lat
              x.2.center_lng CLUSTER_DISTANCE_KM)) := by
        intro x hx
        by_cases hxP : x.1 ∈ P
        · simp [hxP, List.mem_append]
        · rcases hnr : distLE d a.center_lat a.center_lng x.2.center_lat
              x.2.center_lng CLUSTER_DISTANCE_KM with _ | _
          · -- not near: x.1 not collected
            have hxnb : x.1 ∉ nb.map Prod.fst := by
              intro hmem
              obtain ⟨y, hynb, hyx⟩ := List.mem_map.mp hmem
              have hyrest : y ∈ rest' := by
                have := hq ▸ hynb
                exact (List.mem_filter.mp this).1
              have hxy : y = x :=
                List.inj_on_of_nodup_map hfstnd hyrest hx hyx
              subst hxy
              have := hq ▸ hynb
              have hprop := (List.mem_filter.mp this).2
              rw [hnr] at hprop
              simp at hprop
            have hxP' : x.1 ∉ P ++ i :: nb.map Prod.fst := by
              rw [List.mem_append, List.mem_cons]
              push_neg
              exact ⟨hxP, hne x hx, hxnb⟩
            simp [hxP', hxP]
          · -- near: x.1 was collected into the cluster
            have hxnb : x ∈ nb := by
              rw [hq, List.mem_filter]
              refine ⟨hx, ?_⟩
              simp [hxP, hnr]
            have hxP' : x.1 ∈ P ++ i :: nb.map Prod.fst := by
              refine List.mem_append_right _ (List.mem_cons_of_mem _ ?_)
              exact List.mem_map_of_mem Prod.fst hxnb
            simp [hxP', hxP]
      have hKrec : (rest'.filter (fun x =>
            decide (x.1 ∉ P ++ i :: nb.map Prod.fst))) =
          rest'.filter (fun x => decide (x.1 ∉ P) &&
            !(distLE d a.center_lat a.center_lng x.2.center_lat
              x.2.center_lng CLUSTER_DISTANCE_KM)) :=
        List.filter_congr hP'
      rw [hKrec] at hrec
      -- combine: nb.map snd ++ rec ~ filter (∉ P)
      have hsplit1 : rest'.filter (fun x => decide (x.1 ∉ P) &&
            distLE d a.center_lat a.center_lng x.2.center_lat
              x.2.center_lng CLUSTER_DISTANCE_KM) =
          (rest'.filter (fun x => decide (x.1 ∉ P))).filter (fun x =>
            distLE d a.center_lat a.center_lng x.2.center_lat
              x.2.center_lng CLUSTER_DISTANCE_KM) := by
        rw [List.filter_filter]
        exact List.filter_congr fun x hx => by rw [Bool.and_comm]
      have hsplit2 : rest'.filter (fun x => decide (x.1 ∉ P) &&
            !(distLE d a.center_lat a.center_lng x.2.center_lat
              x.2.center_lng CLUSTER_DISTANCE_KM)) =
          (rest'.filter (fun x => decide (x.1 ∉ P))).filter (fun x =>
            !(distLE d a.center_lat a.center_lng x.2.center_lat
              x.2.center_lng CLUSTER_DISTANCE_KM)) := by
        rw [List.filter_filter]
        exact List.filter_congr fun x hx => by rw [Bool.and_comm]
      refine List.Perm.trans (List.Perm.append_left _ hrec) ?_
      rw [hq, hsplit1, hsplit2, ← List.map_append]
      exact List.Perm.map Prod.snd (List.filter_append_perm _ _)

theorem createClusters_members_perm (d : DistFn) (ph : List Photo) (zoom : ℚ)
    (areas : List Area) :
    ((createClusters d ph zoom areas).flatMap memberAreas).Perm areas := by
  unfold createClusters
  by_cases hz : shouldClusterMarkers zoom
  · simp only [hz, Bool.not_true, Bool.false_eq_true, if_false]
    have haux := clusters_members_perm_aux d ph (withIndices 0 areas)
      (nodup_map_fst_withIndices areas 0) (withIndices 0 areas) [] []
      (by simp) (by simp)
    have hfilter : (withIndices 0 areas).filter
        (fun x => decide (x.1 ∉ ([] : List ℕ))) = withIndices 0 areas := by
      rw [List.filter_eq_self]
      intro x hx
      simp
    rw [hfilter, map_snd_withIndices] at haux
    exact haux
  · simp only [hz, Bool.not_false, if_true]
    rw [List.flatMap_map]
    have hpt : (areas.flatMap fun a => memberAreas (spreadArea a)) =
        areas.flatMap fun a => [a] := by
      simp only [memberAreas_spreadArea]
    rw [hpt, List.flatMap_singleton']

theorem distLE_true_coords {d : DistFn} {lat1 lng1 lat2 lng2 : Option ℚ}
    {t : ℚ} (h : distLE d lat1 lng1 lat2 lng2 t = true) :
    (∃ x, lat1 = some x) ∧ (∃ x, lng1 = some x) ∧
    (∃ x, lat2 = some x) ∧ (∃ x, lng2 = some x) := by
  unfold distLE at h
  rcases lat1 with _ | x1 <;> rcases lng1 with _ | y1 <;>
    rcases lat2 with _ | x2 <;> rcases lng2 with _ | y2 <;> simp_all

theorem mem_foldl_clusterStep (d : DistFn) (ph : List Photo)
    (all : List (ℕ × Area)) :
    ∀ (rest : List (ℕ × Area)) (st : List Cluster × List ℕ) (c : Cluster),
      c ∈ (rest.foldl (clusterStep d ph all) st).1 →
      c ∈ st.1 ∨ (∃ a, c = spreadArea a) ∨
        (∃ (a : Area) (nearby : List (ℕ × Area)),
          c = mkClusterObj d ph a (nearby.map Prod.snd) ∧
          nearby ≠ [] ∧
          ∀ jb ∈ nearby,
            distLE d a.center_lat a.center_lng jb.2.center_lat
              jb.2.center_lng CLUSTER_DISTANCE_KM = true) := by
  intro rest
  induction rest with
  | nil => intro st c hc; exact Or.inl hc
  | cons ia rest' ih =>
    intro st c hc
    rw [List.foldl_cons] at hc
    by_cases hi : ia.1 ∈ st.2
    · have hstep : clusterStep d ph all st ia = st := by
        simp [clusterStep, hi]
      rw [hstep] at hc
      exact ih st c hc
    · rcases ih _ c hc with hmem | h | h
      · -- c came from the new state's accumulator
        have hsplit : (clusterStep d ph all st ia).1 =
            st.1 ++ [if (ia.2 :: (nearbyOf d all st.2 ia.1 ia.2).map
                Prod.snd).length > 1 then
              mkClusterObj d ph ia.2
                ((nearbyOf d all st.2 ia.1 ia.2).map Prod.snd)
            else spreadArea ia.2] := by
          unfold clusterStep
          dsimp only
          rw [if_neg hi]
          split_ifs <;> rfl
        rw [hsplit] at hmem
        rcases List.mem_append.mp hmem with h1 | h1
        · exact Or.inl h1
        · rw [List.mem_singleton] at h1
          by_cases hlen : (ia.2 :: (nearbyOf d all st.2 ia.1 ia.2).map
              Prod.snd).length > 1
          · rw [if_pos hlen] at h1
            refine Or.inr (Or.inr ⟨ia.2, nearbyOf d all st.2 ia.1 ia.2,
              h1, ?_, ?_⟩)
            · intro hnil
              rw [hnil] at hlen
              simp at hlen
            · intro jb hjb
              have := List.mem_filter.mp hjb
              have h2 := this.2
              simp only [Bool.and_eq_true] at h2
              exact h2.2
          · rw [if_neg hlen] at h1
            exact Or.inr (Or.inl ⟨ia.2, h1⟩)
      · exact Or.inr (Or.inl h)
      · exact Or.inr (Or.inr h)

theorem mem_createClusters_cases (d : DistFn) (ph : List Photo) (zoom : ℚ)
    (areas : List Area) (c : Cluster)
    (hc : c ∈ createClusters d ph zoom areas) :
    (∃ a, c = spreadArea a) ∨
      (∃ (a : Area) (nearby : List (ℕ × Area)),
        c = mkClusterObj d ph a (nearby.map Prod.snd) ∧ nearby ≠ [] ∧
        ∀ jb ∈ nearby,
          distLE d a.center_lat a.center_lng jb.2.center_lat
            jb.2.center_lng CLUSTER_DISTANCE_KM = true) := by
  unfold createClusters at hc
  by_cases hz : shouldClusterMarkers zoom
  · simp only [hz, Bool.not_true, Bool.false_eq_true, if_false] at hc
    rcases mem_foldl_clusterStep d ph _ _ _ c hc with h0 | h | h
    · exact absurd h0 (List.not_mem_nil c)
    · exact Or.inl h
    · exact Or.inr h
  · simp only [hz, Bool.not_false, if_true] at hc
    obtain ⟨a, _, rfl⟩ := List.mem_map.mp hc
    exact Or.inl ⟨a, rfl⟩

theorem map_eq_map_some {α : Type} (f : Area → Option α) :
    ∀ (l : List Area), (∀ x ∈ l, ∃ v, f x = some v) →
      ∃ vs : List α, l.map f = vs.map some := by
  intro l
  induction l with
  | nil => intro _; exact ⟨[], rfl⟩
  | cons a l ih =>
    intro h
    obtain ⟨v, hv⟩ := h a (List.mem_cons_self a l)
    obtain ⟨vs, hvs⟩ := ih fun x hx => h x (List.mem_cons_of_mem a hx)
    exact ⟨v :: vs, by simp [hv, hvs]⟩

theorem jsSum_map_some : ∀ (vs : List ℚ) (init : ℚ),
    (vs.map some).foldl jsAdd (some init) = some (init + vs.sum) := by
  intro vs
  induction vs with
  | nil => intro init; simp [List.sum_nil]
  | cons v vs ih =>
    intro init
    rw [List.map_cons, List.foldl_cons]
    show (vs.map some).foldl jsAdd (jsAdd (some init) (some v)) = _
    rw [show jsAdd (some init) (some v) = some (init + v) from rfl, ih]
    rw [List.sum_cons]
    ring_nf

theorem mkClusterObj_center_lat (d : DistFn) (ph : List Photo) (a : Area)
    (ns : List Area) (lats : List ℚ)
    (h : (a :: ns).map Area.center_lat = lats.map some) :
    (mkClusterObj d ph a ns).center_lat =
      some (lats.sum / ((a :: ns).length : ℚ)) := by
  show jsDivNat (jsSum ((a :: ns).map Area.center_lat)) (a :: ns).length = _
  rw [h]
  unfold jsSum
  rw [jsSum_map_some, zero_add]
  rfl

theorem mkClusterObj_center_lng (d : DistFn) (ph : List Photo) (a : Area)
    (ns : List Area) (lngs : List ℚ)
    (h : (a :: ns).map Area.center_lng = lngs.map some) :
    (mkClusterObj d ph a ns).center_lng =
      some (lngs.sum / ((a :: ns).length : ℚ)) := by
  show jsDivNat (jsSum ((a :: ns).map Area.center_lng)) (a :: ns).length = _
  rw [h]
  unfold jsSum
  rw [jsSum_map_some, zero_add]
  rfl

/-- C3: every multi-member cluster has at least two member areas, its center
coordinates are the arithmetic mean of the members' centers, and its photo
list length is the sum of the per-member photo counts (no de-duplication:
photos in overlapping areas are counted once per member). -/
theorem C3_cluster_mean_center_and_count (d : DistFn) (ph : List Photo)
    (zoom : ℚ) (areas : List Area) :
    ∀ c ∈ createClusters d ph zoom areas, c.isCluster = true →
      2 ≤ c.areas.length ∧
      (∃ lats lngs : List ℚ,
        c.areas.map Area.center_lat = lats.map some ∧
        c.areas.map Area.center_lng = lngs.map some ∧
        c.center_lat = some (lats.sum / (c.areas.length : ℚ)) ∧
        c.center_lng = some (lngs.sum / (c.areas.length : ℚ))) ∧
      c.photos.length =
        (c.areas.map fun b =>
          (DataManager_getPhotosInAreaOf d ph b).length).sum := by
  intro c hc hic
  rcases mem_createClusters_cases d ph zoom areas c hc with ⟨a, rfl⟩ | h
  · exact absurd hic (by simp [spreadArea])
  · obtain ⟨a, nearby, rfl, hne, hdist⟩ := h
    obtain ⟨jb0, hjb0⟩ := List.exists_mem_of_ne_nil nearby hne
    have hareas : (mkClusterObj d ph a (nearby.map Prod.snd)).areas =
        a :: nearby.map Prod.snd := rfl
    have hcoords : ∀ x ∈ a :: nearby.map Prod.snd,
        (∃ v, x.center_lat = some v) ∧ (∃ v, x.center_lng = some v) := by
      intro x hx
      rcases List.mem_cons.mp hx with rfl | hx'
      · have h0 := distLE_true_coords (hdist jb0 hjb0)
        exact ⟨h0.1, h0.2.1⟩
      · obtain ⟨jb, hjb, rfl⟩ := List.mem_map.mp hx'
        have h0 := distLE_true_coords (hdist jb hjb)
        exact ⟨h0.2.2.1, h0.2.2.2⟩
    obtain ⟨lats, hlats⟩ := map_eq_map_some Area.center_lat
      (a :: nearby.map Prod.snd) fun x hx => (hcoords x hx).1
    obtain ⟨lngs, hlngs⟩ := map_eq_map_some Area.center_lng
      (a :: nearby.map Prod.snd) fun x hx => (hcoords x hx).2
    refine ⟨?_, ⟨lats, lngs, ?_, ?_, ?_, ?_⟩, ?_⟩
    · rw [hareas]
      have : 0 < (nearby.map Prod.snd).length := by
        rw [List.length_map]
        exact List.length_pos.mpr hne
      simp only [List.length_cons]
      omega
    · rw [hareas]; exact hlats
    · rw [hareas]; exact hlngs
    · rw [hareas]
      exact mkClusterObj_center_lat d ph a (nearby.map Prod.snd) lats hlats
    · rw [hareas]
      exact mkClusterObj_center_lng d ph a (nearby.map Prod.snd) lngs hlngs
    · show ((a :: nearby.map Prod.snd).flatMap fun b =>
          DataManager_getPhotosInAreaOf d ph b).length = _
      rw [List.length_flatMap, hareas]
      rfl

theorem cluster_id_encounter_order (d : DistFn) (ph : List Photo) (zoom : ℚ)
    (areas : List Area) :
    ∀ c ∈ createClusters d ph zoom areas, c.isCluster = true →
      c.id = "cluster_" ++ String.intercalate "_" (c.areas.map Area.id) := by
  intro c hc hic
  rcases mem_createClusters_cases d ph zoom areas c hc with ⟨a, rfl⟩ | h
  · exact absurd hic (by simp [spreadArea])
  · obtain ⟨a, nearby, rfl, _, _⟩ := h
    rfl

theorem shouldClusterMarkers_eq_false {zoom : ℚ}
    (h : CLUSTER_ZOOM_THRESHOLD < zoom) : shouldClusterMarkers zoom = false := by
  simp only [shouldClusterMarkers, decide_eq_false_iff_not, not_le]
  exact h

theorem spread_marker_eq (d : DistFn) (ph : List Photo) (zoom : ℚ) (a : Area) :
    markerFor d ph zoom (spreadArea a) =
    if rendersMarker d ph a then some (markerOfArea d ph zoom a) else none := by
  unfold markerFor
  have hpia : (if (spreadArea a).isCluster then (spreadArea a).photos
      else DataManager_getPhotosInAreaOfCluster d ph (spreadArea a)) =
      DataManager_getPhotosInAreaOf d ph a := rfl
  rw [hpia]
  unfold createAreaMarker rendersMarker markerOfArea
  by_cases h1 : 0 < (DataManager_getPhotosInAreaOf d ph a).length <;>
    by_cases h2 : truthyQ a.center_lat = true <;>
      by_cases h3 : truthyQ a.center_lng = true <;>
        by_cases h4 : a.is_active = some false <;>
          simp_all [spreadArea, beq_iff_eq]

theorem length_filterMap_if {α β : Type} (l : List α) (p : α → Prop)
    [DecidablePred p] (g : α → β) :
    (l.filterMap fun a => if p a then some (g a) else none).length =
      (l.filter fun a => decide (p a)).length := by
  induction l with
  | nil => rfl
  | cons a l ih =>
    rw [List.filterMap_cons, List.filter_cons]
    by_cases h : p a <;> simp [h, ih]

/-- C2 (amended): above the zoom threshold `createClusters` returns one
singleton pass-through per input area — all areas, in input order, each with
`isCluster = false` — so its count equals the total input count; the
active/photo-bearing filtering only happens at marker creation, making the
marker count equal to the number of areas that have photos, truthy
coordinates, and `is_active !== false`. -/
theorem C2_zoom_gating (d : DistFn) (ph : List Photo) (zoom : ℚ)
    (areas : List Area) (hz : CLUSTER_ZOOM_THRESHOLD < zoom) :
    createClusters d ph zoom areas = areas.map spreadArea ∧
    (∀ c ∈ createClusters d ph zoom areas, c.isCluster = false) ∧
    addAreaMarkers d ph zoom areas =
      areas.filterMap (fun a =>
        if rendersMarker d ph a then some (markerOfArea d ph zoom a)
        else none) ∧
    (addAreaMarkers d ph zoom areas).length =
      (areas.filter fun a => decide (rendersMarker d ph a)).length := by
  have hmap : createClusters d ph zoom areas = areas.map spreadArea := by
    unfold createClusters
    rw [shouldClusterMarkers_eq_false hz]
    rfl
  have hmarkers : addAreaMarkers d ph zoom areas =
      areas.filterMap (fun a =>
        if rendersMarker d ph a then some (markerOfArea d ph zoom a)
        else none) := by
    unfold addAreaMarkers
    rw [hmap, List.filterMap_map]
    refine List.filterMap_congr ?_
    intro a _
    exact spread_marker_eq d ph zoom a
  refine ⟨hmap, ?_, hmarkers, ?_⟩
  · intro c hc
    rw [hmap] at hc
    obtain ⟨a, _, rfl⟩ := List.mem_map.mp hc
    rfl
  · rw [hmarkers]
    exact length_filterMap_if areas (rendersMarker d ph) (markerOfArea d ph zoom)

/-- C1 (amended): every area of the input appears exactly once across the
member lists of the output clusters (so each active photo-bearing area is in
exactly one cluster); a marker whose cluster is a singleton always comes from
an area with truthy coordinates, `is_active !== false` and a nonzero photo
count — but `createClusters` itself filters neither by `is_active` nor by
photo count, so inactive or photo-free areas can sit inside a multi-member
cluster (see the counterexample). -/
theorem C1_every_area_in_one_cluster (d : DistFn) (ph : List Photo)
    (zoom : ℚ) (areas : List Area) :
    ((createClusters d ph zoom areas).flatMap memberAreas).Perm areas ∧
    (∀ m ∈ addAreaMarkers d ph zoom areas, m.cluster.isCluster = false →
      truthyQ m.cluster.center_lat = true ∧
      truthyQ m.cluster.center_lng = true ∧
      m.cluster.is_active ≠ some false ∧ 0 < m.photoCount) := by
  refine ⟨createClusters_members_perm d ph zoom areas, ?_⟩
  intro m hm _
  obtain ⟨c, hc, hg⟩ := List.mem_filterMap.mp hm
  unfold markerFor at hg
  dsimp only at hg
  by_cases hlen : (if c.isCluster then c.photos
      else DataManager_getPhotosInAreaOfCluster d ph c).length > 0
  · rw [if_pos hlen] at hg
    unfold createAreaMarker at hg
    by_cases hcond : (!truthyQ c.center_lat || !truthyQ c.center_lng ||
        c.is_active == some false) = true
    · rw [if_pos hcond] at hg
      exact absurd hg (by simp)
    · rw [if_neg hcond] at hg
      rw [Option.some.injEq] at hg
      subst hg
      simp only [Bool.or_eq_true, Bool.not_eq_true', beq_iff_eq, not_or] at hcond
      refine ⟨?_, ?_, ?_, hlen⟩ <;> simp_all
  · rw [if_neg hlen] at hg
    exact absurd hg (by simp)

/-- C4 (amended): a multi-member cluster's id is `cluster_` followed by the
member area ids joined in encounter order; two runs that produce clusters
with the same ordered member-id list assign the same id — but the ids are
not sorted, so the same member set in a different encounter order yields a
different id (see the counterexample). -/
theorem C4_id_from_member_ids (d d2 : DistFn) (ph ph2 : List Photo)
    (z z2 : ℚ) (as as2 : List Area) :
    ∀ c ∈ createClusters d ph z as, ∀ c2 ∈ createClusters d2 ph2 z2 as2,
      c.isCluster = true → c2.isCluster = true →
      c.areas.map Area.id = c2.areas.map Area.id → c.id = c2.id := by
  intro c hc c2 hc2 hic hic2 hids
  rw [cluster_id_encounter_order d ph z as c hc hic,
    cluster_id_encounter_order d2 ph2 z2 as2 c2 hc2 hic2, hids]

unseal Rat.mul Rat.add Rat.inv Rat.sub in
/-- C1 counterexample: an inactive area within clusterDistanceKm of an active
one is absorbed into the multi-member cluster, which is rendered as a marker
— contradicting the claim that every inactive area appears in no cluster and
produces no marker. -/
theorem C1_counterexample :
    areaInactive.is_active = some false ∧
    (createClusters discreteDist [photoAt] 10 [areaInactive, areaA]).map
        Cluster.areas = [[areaInactive, areaA]] ∧
    (addAreaMarkers discreteDist [photoAt] 10 [areaInactive, areaA]).length
      = 1 := by
  decide

unseal Rat.mul Rat.add Rat.inv Rat.sub in
/-- C2 counterexample: at zoom 13 with a single inactive, photo-free area the
claim predicts zero output clusters (one per active photo-bearing area), but
`createClusters` returns one cluster. -/
theorem C2_counterexample :
    CLUSTER_ZOOM_THRESHOLD < (13 : ℚ) ∧
    areaInactive.is_active = some false ∧
    DataManager_getPhotosInAreaOf discreteDist [] areaInactive = [] ∧
    (createClusters discreteDist [] 13 [areaInactive]).length = 1 := by
  decide

unseal Rat.mul Rat.add Rat.inv Rat.sub in
/-- C4 counterexample: the two input orders of the same two coincident areas
produce clusters with equal member sets (the flattened member lists are
permutations of each other) yet different ids: `cluster_a1_a2` versus
`cluster_a2_a1` — the ids are not derived from sorted member ids. -/
theorem C4_counterexample :
    ((createClusters discreteDist [] 10 [areaA, areaB]).map Cluster.id =
      ["cluster_a1_a2"]) ∧
    ((createClusters discreteDist [] 10 [areaB, areaA]).map Cluster.id =
      ["cluster_a2_a1"]) ∧
    ((createClusters discreteDist [] 10 [areaA, areaB]).flatMap
        memberAreas).Perm
      ((createClusters discreteDist [] 10 [areaB, areaA]).flatMap
        memberAreas) ∧
    ("cluster_a1_a2" : String) ≠ "cluster_a2_a1" := by
  decide

unseal Rat.mul Rat.add Rat.inv Rat.sub in
theorem C1_every_area_in_one_cluster_witness :
    ((createClusters discreteDist [photoAt] 13 [areaA]).flatMap
        memberAreas).Perm [areaA] ∧
    (truthyQ (markerOfArea discreteDist [photoAt] 13 areaA).cluster.center_lat
        = true ∧
      truthyQ (markerOfArea discreteDist [photoAt] 13 areaA).cluster.center_lng
        = true ∧
      (markerOfArea discreteDist [photoAt] 13 areaA).cluster.is_active ≠
        some false ∧
      0 < (markerOfArea discreteDist [photoAt] 13 areaA).photoCount) :=
  ⟨(C1_every_area_in_one_cluster discreteDist [photoAt] 13 [areaA]).1,
    (C1_every_area_in_one_cluster discreteDist [photoAt] 13 [areaA]).2
      (markerOfArea discreteDist [photoAt] 13 areaA) (by decide) (by decide)⟩

theorem C2_zoom_gating_witness :
    CLUSTER_ZOOM_THRESHOLD < (13 : ℚ) ∧
    createClusters discreteDist [photoAt] 13 [areaA] =
      [areaA].map spreadArea ∧
    (addAreaMarkers discreteDist [photoAt] 13 [areaA]).length =
      ([areaA].filter fun a =>
        decide (rendersMarker discreteDist [photoAt] a)).length :=
  ⟨by decide,
    (C2_zoom_gating discreteDist [photoAt] 13 [areaA] (by decide)).1,
    (C2_zoom_gating discreteDist [photoAt] 13 [areaA] (by decide)).2.2.2⟩

unseal Rat.mul Rat.add Rat.inv Rat.sub in
theorem C3_cluster_mean_witness :
    mkClusterObj discreteDist [photoAt] areaA [areaB] ∈
        createClusters discreteDist [photoAt] 10 [areaA, areaB] ∧
    (2 ≤ (mkClusterObj discreteDist [photoAt] areaA [areaB]).areas.length ∧
      (∃ lats lngs : List ℚ,
        (mkClusterObj discreteDist [photoAt] areaA [areaB]).areas.map
            Area.center_lat = lats.map some ∧
        (mkClusterObj discreteDist [photoAt] areaA [areaB]).areas.map
            Area.center_lng = lngs.map some ∧
        (mkClusterObj discreteDist [photoAt] areaA [areaB]).center_lat =
          some (lats.sum /
            ((mkClusterObj discreteDist [photoAt] areaA [areaB]).areas.length : ℚ)) ∧
        (mkClusterObj discreteDist [photoAt] areaA [areaB]).center_lng =
          some (lngs.sum /
            ((mkClusterObj discreteDist [photoAt] areaA [areaB]).areas.length : ℚ))) ∧
      (mkClusterObj discreteDist [photoAt] areaA [areaB]).photos.length =
        ((mkClusterObj discreteDist [photoAt] areaA [areaB]).areas.map fun b =>
          (DataManager_getPhotosInAreaOf discreteDist [photoAt] b).length).sum) :=
  ⟨by decide,
    C3_cluster_mean_center_and_count discreteDist [photoAt] 10 [areaA, areaB]
      (mkClusterObj discreteDist [photoAt] areaA [areaB]) (by decide)
      (by decide)⟩

unseal Rat.mul Rat.add Rat.inv Rat.sub in
theorem C4_id_witness :
    mkClusterObj discreteDist [] areaA [areaB] ∈
        createClusters discreteDist [] 10 [areaA, areaB] ∧
    mkClusterObj discreteDist [] areaA [areaB] ∈
        createClusters discreteDist [] 11 [areaA, areaB] ∧
    (mkClusterObj discreteDist [] areaA [areaB]).id =
      (mkClusterObj discreteDist [] areaA [areaB]).id :=
  ⟨by decide, by decide,
    C4_id_from_member_ids discreteDist discreteDist [] [] 10 11
      [areaA, areaB] [areaA, areaB]
      (mkClusterObj discreteDist [] areaA [areaB]) (by decide)
      (mkClusterObj discreteDist [] areaA [areaB]) (by decide)
      (by decide) (by decide) rfl⟩

theorem distLE_right_none {d : DistFn} {l1 g1 l2 g2 : Option ℚ} {t : ℚ}
    (h : l2 = none ∨ g2 = none) : distLE d l1 g1 l2 g2 t = false := by
  unfold distLE
  rcases h with rfl | rfl
  · rcases l1 <;> rcases g1 <;> rcases g2 <;> rfl
  · rcases l1 <;> rcases g1 <;> rcases l2 <;> rfl

theorem distLE_left_none {d : DistFn} {l1 g1 l2 g2 : Option ℚ} {t : ℚ}
    (h : l1 = none ∨ g1 = none) : distLE d l1 g1 l2 g2 t = false := by
  unfold distLE
  rcases h with rfl | rfl
  · rcases g1 <;> rcases l2 <;> rcases g2 <;> rfl
  · rcases l1 <;> rcases l2 <;> rcases g2 <;> rfl

theorem nearbyOf_erase_invisible (d : DistFn) (X Y : List (ℕ × Area))
    (m : ℕ) (bad : Area)
    (hbad : bad.center_lat = none ∨ bad.center_lng = none)
    (P : List ℕ) (i : ℕ) (a : Area) :
    nearbyOf d (X ++ (m, bad) :: Y) P i a = nearbyOf d (X ++ Y) P i a := by
  unfold nearbyOf
  rw [List.filter_append, List.filter_append, List.filter_cons]
  have hfalse : (decide ((m, bad).1 ≠ i) && decide ((m, bad).1 ∉ P) &&
      distLE d a.center_lat a.center_lng (m, bad).2.center_lat
        (m, bad).2.center_lng CLUSTER_DISTANCE_KM) = false := by
    rw [distLE_right_none hbad]
    simp
  rw [hfalse]
  simp

theorem clusterStep_erase_invisible (d : DistFn) (ph : List Photo)
    (X Y : List (ℕ × Area)) (m : ℕ) (bad : Area)
    (hbad : bad.center_lat = none ∨ bad.center_lng = none)
    (st : List Cluster × List ℕ) (ia : ℕ × Area) :
    clusterStep d ph (X ++ (m, bad) :: Y) st ia =
      clusterStep d ph (X ++ Y) st ia := by
  unfold clusterStep
  rw [nearbyOf_erase_invisible d X Y m bad hbad]

theorem clusterStep_snd_of_not_mem (d : DistFn) (ph : List Photo)
    (all : List (ℕ × Area)) (st : List Cluster × List ℕ) (ia : ℕ × Area)
    (h : ia.1 ∉ st.2) :
    (clusterStep d ph all st ia).2 =
      st.2 ++ ia.1 :: (nearbyOf d all st.2 ia.1 ia.2).map Prod.fst := by
  unfold clusterStep
  dsimp only
  rw [if_neg h]
  split_ifs <;> rfl

theorem clusterStep_of_not_mem (d : DistFn) (ph : List Photo)
    (all : List (ℕ × Area)) (st : List Cluster × List ℕ) (ia : ℕ × Area)
    (h : ia.1 ∉ st.2) :
    clusterStep d ph all st ia =
      (st.1 ++ [if (ia.2 :: (nearbyOf d all st.2 ia.1 ia.2).map
            Prod.snd).length > 1 then
          mkClusterObj d ph ia.2 ((nearbyOf d all st.2 ia.1 ia.2).map Prod.snd)
        else spreadArea ia.2],
       st.2 ++ ia.1 :: (nearbyOf d all st.2 ia.1 ia.2).map Prod.fst) := by
  unfold clusterStep
  dsimp only
  rw [if_neg h]
  split_ifs <;> rfl

theorem nearbyOf_sub_fst (d : DistFn) (all : List (ℕ × Area)) (P : List ℕ)
    (i : ℕ) (a : Area) (j : ℕ)
    (hj : j ∈ (nearbyOf d all P i a).map Prod.fst) : j ∈ all.map Prod.fst := by
  obtain ⟨jb, hjb, rfl⟩ := List.mem_map.mp hj
  exact List.mem_map_of_mem Prod.fst (List.mem_of_mem_filter hjb)

theorem m_not_in_foldl_processed (d : DistFn) (ph : List Photo)
    (allB : List (ℕ × Area)) (m : ℕ) (hm : m ∉ allB.map Prod.fst) :
    ∀ (rest : List (ℕ × Area)) (st : List Cluster × List ℕ),
      (∀ x ∈ rest, x.1 ≠ m) → m ∉ st.2 →
      m ∉ (rest.foldl (clusterStep d ph allB) st).2 := by
  intro rest
  induction rest with
  | nil => intro st _ hst; exact hst
  | cons ia rest' ih =>
    intro st hrest hst
    rw [List.foldl_cons]
    by_cases hi : ia.1 ∈ st.2
    · have : clusterStep d ph allB st ia = st := by simp [clusterStep, hi]
      rw [this]
      exact ih st (fun x hx => hrest x (List.mem_cons_of_mem ia hx)) hst
    · refine ih _ (fun x hx => hrest x (List.mem_cons_of_mem ia hx)) ?_
      rw [clusterStep_snd_of_not_mem d ph allB st ia hi]
      rw [List.mem_append, List.mem_cons]
      push_neg
      refine ⟨hst, ?_, ?_⟩
      · intro h; exact hrest ia (List.mem_cons_self ia rest') h.symm
      · intro h
        exact hm (nearbyOf_sub_fst d allB st.2 ia.1 ia.2 m h)

theorem nearbyOf_congr_processed (d : DistFn) (allB : List (ℕ × Area))
    (m : ℕ) (hmall : m ∉ allB.map Prod.fst) (PA PB : List ℕ)
    (hPP : ∀ j, j ≠ m → (j ∈ PA ↔ j ∈ PB)) (i : ℕ) (a : Area) :
    nearbyOf d allB PA i a = nearbyOf d allB PB i a := by
  unfold nearbyOf
  refine List.filter_congr ?_
  intro x hx
  have hxm : x.1 ≠ m := by
    intro h
    exact hmall (h ▸ List.mem_map_of_mem Prod.fst hx)
  have hd : decide (x.1 ∉ PA) = decide (x.1 ∉ PB) :=
    decide_eq_decide.mpr (not_congr (hPP x.1 hxm))
  rw [hd]

theorem foldl_clusters_congr_processed (d : DistFn) (ph : List Photo)
    (allB : List (ℕ × Area)) (m : ℕ) (hmall : m ∉ allB.map Prod.fst) :
    ∀ (rest : List (ℕ × Area)) (cs : List Cluster) (PA PB : List ℕ),
      (∀ x ∈ rest, x.1 ≠ m) →
      (∀ j, j ≠ m → (j ∈ PA ↔ j ∈ PB)) →
      (rest.foldl (clusterStep d ph allB) (cs, PA)).1 =
        (rest.foldl (clusterStep d ph allB) (cs, PB)).1 := by
  intro rest
  induction rest with
  | nil => intro cs PA PB _ _; rfl
  | cons ia rest' ih =>
    intro cs PA PB hrest hPP
    have hiam : ia.1 ≠ m := hrest ia (List.mem_cons_self ia rest')
    have hrest' : ∀ x ∈ rest', x.1 ≠ m :=
      fun x hx => hrest x (List.mem_cons_of_mem ia hx)
    rw [List.foldl_cons, List.foldl_cons]
    by_cases hi : ia.1 ∈ PA
    · have hi' : ia.1 ∈ PB := (hPP ia.1 hiam).mp hi
      have e1 : clusterStep d ph allB (cs, PA) ia = (cs, PA) := by
        simp [clusterStep, hi]
      have e2 : clusterStep d ph allB (cs, PB) ia = (cs, PB) := by
        simp [clusterStep, hi']
      rw [e1, e2]
      exact ih cs PA PB hrest' hPP
    · have hi' : ia.1 ∉ PB := fun h => hi ((hPP ia.1 hiam).mpr h)
      have hnb : nearbyOf d allB PA ia.1 ia.2 = nearbyOf d allB PB ia.1 ia.2 :=
        nearbyOf_congr_processed d allB m hmall PA PB hPP ia.1 ia.2
      have e1 : clusterStep d ph allB (cs, PA) ia =
          (cs ++ [if (ia.2 :: (nearbyOf d allB PA ia.1 ia.2).map
              Prod.snd).length > 1 then
            mkClusterObj d ph ia.2 ((nearbyOf d allB PA ia.1 ia.2).map Prod.snd)
          else spreadArea ia.2],
           PA ++ ia.1 :: (nearbyOf d allB PA ia.1 ia.2).map Prod.fst) := by
        unfold clusterStep
        dsimp only
        rw [if_neg hi]
        split_ifs <;> rfl
      have e2 : clusterStep d ph allB (cs, PB) ia =
          (cs ++ [if (ia.2 :: (nearbyOf d allB PA ia.1 ia.2).map
              Prod.snd).length > 1 then
            mkClusterObj d ph ia.2 ((nearbyOf d allB PA ia.1 ia.2).map Prod.snd)
          else spreadArea ia.2],
           PB ++ ia.1 :: (nearbyOf d allB PA ia.1 ia.2).map Prod.fst) := by
        unfold clusterStep
        dsimp only
        rw [if_neg hi', ← hnb]
        split_ifs <;> rfl
      rw [e1, e2]
      refine ih _ _ _ hrest' ?_
      intro j hj
      rw [List.mem_append, List.mem_append, hPP j hj]

theorem nearbyOf_relabel (d : DistFn) (φ : ℕ → ℕ)
    (hφ : Function.Injective φ) (all : List (ℕ × Area)) (P : List ℕ)
    (i : ℕ) (a : Area) :
    nearbyOf d (all.map (Prod.map φ id)) (P.map φ) (φ i) a =
      (nearbyOf d all P i a).map (Prod.map φ id) := by
  unfold nearbyOf
  rw [List.filter_map]
  congr 1
  refine List.filter_congr ?_
  intro x _
  have h1 : decide ((Prod.map φ id x).1 ≠ φ i) = decide (x.1 ≠ i) :=
    decide_eq_decide.mpr (not_congr ⟨fun h => hφ h, fun h => h ▸ rfl⟩)
  have h2 : decide ((Prod.map φ id x).1 ∉ P.map φ) = decide (x.1 ∉ P) :=
    decide_eq_decide.mpr (not_congr (List.mem_map_of_injective hφ))
  have h3 : (Prod.map φ id x).2 = x.2 := rfl
  show (decide ((Prod.map φ id x).1 ≠ φ i) &&
      decide ((Prod.map φ id x).1 ∉ P.map φ) &&
      distLE d a.center_lat a.center_lng (Prod.map φ id x).2.center_lat
        (Prod.map φ id x).2.center_lng CLUSTER_DISTANCE_KM) = _
  rw [h1, h2, h3]

theorem foldl_clusterStep_relabel (d : DistFn) (ph : List Photo) (φ : ℕ → ℕ)
    (hφ : Function.Injective φ) (all : List (ℕ × Area)) :
    ∀ (rest : List (ℕ × Area)) (cs : List Cluster) (P : List ℕ),
      (rest.map (Prod.map φ id)).foldl
          (clusterStep d ph (all.map (Prod.map φ id))) (cs, P.map φ) =
        ((rest.foldl (clusterStep d ph all) (cs, P)).1,
         ((rest.foldl (clusterStep d ph all) (cs, P)).2).map φ) := by
  intro rest
  induction rest with
  | nil => intro cs P; rfl
  | cons ia rest' ih =>
    intro cs P
    obtain ⟨i0, a0⟩ := ia
    have hmap : Prod.map φ id (i0, a0) = (φ i0, a0) := rfl
    rw [List.map_cons, List.foldl_cons, List.foldl_cons, hmap]
    by_cases hi : i0 ∈ P
    · have hi' : φ i0 ∈ P.map φ := (List.mem_map_of_injective hφ).mpr hi
      have e1 : clusterStep d ph (all.map (Prod.map φ id)) (cs, P.map φ)
          (φ i0, a0) = (cs, P.map φ) := by
        simp only [clusterStep]
        rw [if_pos hi']
      have e2 : clusterStep d ph all (cs, P) (i0, a0) = (cs, P) := by
        simp only [clusterStep]
        rw [if_pos hi]
      rw [e1, e2]
      exact ih cs P
    · have hi' : φ i0 ∉ P.map φ :=
        fun h => hi ((List.mem_map_of_injective hφ).mp h)
      have hnb : nearbyOf d (all.map (Prod.map φ id)) (P.map φ) (φ i0) a0 =
          (nearbyOf d all P i0 a0).map (Prod.map φ id) :=
        nearbyOf_relabel d φ hφ all P i0 a0
      have hsnd : ((nearbyOf d all P i0 a0).map
          (Prod.map φ id)).map Prod.snd =
          (nearbyOf d all P i0 a0).map Prod.snd := by
        rw [List.map_map]
        rfl
      have hfst : ((nearbyOf d all P i0 a0).map
          (Prod.map φ id)).map Prod.fst =
          ((nearbyOf d all P i0 a0).map Prod.fst).map φ := by
        rw [List.map_map, List.map_map]
        rfl
      have e1 : clusterStep d ph (all.map (Prod.map φ id)) (cs, P.map φ)
          (φ i0, a0) =
          (cs ++ [if (a0 :: (nearbyOf d all P i0 a0).map
              Prod.snd).length > 1 then
            mkClusterObj d ph a0 ((nearbyOf d all P i0 a0).map Prod.snd)
          else spreadArea a0],
           (P ++ i0 :: (nearbyOf d all P i0 a0).map Prod.fst).map φ) := by
        unfold clusterStep
        dsimp only
        rw [if_neg hi', hnb, hsnd, hfst]
        rw [List.map_append, List.map_cons]
        split_ifs <;> rfl
      have e2 : clusterStep d ph all (cs, P) (i0, a0) =
          (cs ++ [if (a0 :: (nearbyOf d all P i0 a0).map
              Prod.snd).length > 1 then
            mkClusterObj d ph a0 ((nearbyOf d all P i0 a0).map Prod.snd)
          else spreadArea a0],
           P ++ i0 :: (nearbyOf d all P i0 a0).map Prod.fst) := by
        unfold clusterStep
        dsimp only
        rw [if_neg hi]
        split_ifs <;> rfl
      rw [e1, e2]
      exact ih _ _

theorem map_prodmap_id_of_fixed (φ : ℕ → ℕ) :
    ∀ (l : List (ℕ × Area)), (∀ x ∈ l, φ x.1 = x.1) →
      l.map (Prod.map φ id) = l := by
  intro l
  induction l with
  | nil => intro _; rfl
  | cons x l ih =>
    intro h
    obtain ⟨i, a⟩ := x
    have h1 : φ i = i := h (i, a) (List.mem_cons_self _ _)
    rw [List.map_cons, ih fun y hy => h y (List.mem_cons_of_mem _ hy)]
    show (φ i, a) :: l = (i, a) :: l
    rw [h1]

theorem withIndices_map_succ (φ : ℕ → ℕ) (l : List Area) :
    ∀ n, (∀ k, n ≤ k → φ k = k + 1) →
      (withIndices n l).map (Prod.map φ id) = withIndices (n + 1) l := by
  induction l with
  | nil => intro n _; rfl
  | cons a l ih =>
    intro n h
    show (φ n, a) :: (withIndices (n + 1) l).map (Prod.map φ id) = _
    rw [h n (le_refl n), ih (n + 1) fun k hk => h k (by omega)]
    rfl

theorem fst_bounds_of_mem_withIndices {l : List Area} {n : ℕ} {x : ℕ × Area}
    (hx : x ∈ withIndices n l) : n ≤ x.1 ∧ x.1 < n + l.length := by
  have h1 : x.1 ∈ (withIndices n l).map Prod.fst := List.mem_map_of_mem _ hx
  rw [map_fst_withIndices] at h1
  rw [List.mem_range'] at h1
  obtain ⟨i, hi, hx1⟩ := h1
  omega

theorem getPhotosInAreaOfCluster_spread_invisible (d : DistFn)
    (ph : List Photo) (bad : Area)
    (hbad : bad.center_lat = none ∨ bad.center_lng = none) :
    DataManager_getPhotosInAreaOfCluster d ph (spreadArea bad) = [] := by
  unfold DataManager_getPhotosInAreaOfCluster DataManager_getPhotosInArea
  rcases hbad with h | h <;> simp [spreadArea, h, truthyQ]

theorem not_rendersMarker_invisible (d : DistFn) (ph : List Photo)
    (bad : Area) (hbad : bad.center_lat = none ∨ bad.center_lng = none) :
    ¬ rendersMarker d ph bad := by
  intro h
  rcases hbad with h' | h'
  · have := h.2.1
    rw [h'] at this
    exact absurd this (by simp [truthyQ])
  · have := h.2.2.1
    rw [h'] at this
    exact absurd this (by simp [truthyQ])

theorem markerFor_spread_invisible (d : DistFn) (ph : List Photo) (zoom : ℚ)
    (bad : Area) (hbad : bad.center_lat = none ∨ bad.center_lng = none) :
    markerFor d ph zoom (spreadArea bad) = none := by
  rw [spread_marker_eq, if_neg (not_rendersMarker_invisible d ph bad hbad)]

theorem filterMap_markerFor_skip_invisible (d : DistFn) (ph : List Photo)
    (zoom : ℚ) (bad : Area)
    (hbad : bad.center_lat = none ∨ bad.center_lng = none)
    (A1 A2 : List Cluster) :
    (A1 ++ [spreadArea bad] ++ A2).filterMap (markerFor d ph zoom) =
      (A1 ++ A2).filterMap (markerFor d ph zoom) := by
  rw [List.filterMap_append, List.filterMap_append, List.filterMap_append]
  rw [show [spreadArea bad].filterMap (markerFor d ph zoom) = [] by
    simp [List.filterMap_cons, markerFor_spread_invisible d ph zoom bad hbad]]
  simp

/-- C9: an area with a missing center coordinate never joins a cluster (its
distance comparison is always false), its own singleton cluster yields no
photos and hence no marker, and the remaining areas produce exactly the
markers they would produce if the invalid area were absent; the computation
is total, so no exception propagates. -/
theorem C9_invalid_area_transparent (d : DistFn) (ph : List Photo)
    (zoom : ℚ) (l1 l2 : List Area) (bad : Area)
    (hbad : bad.center_lat = none ∨ bad.center_lng = none) :
    addAreaMarkers d ph zoom (l1 ++ bad :: l2) =
      addAreaMarkers d ph zoom (l1 ++ l2) := by
  by_cases hz : shouldClusterMarkers zoom = true
  case neg =>
    have hzf : shouldClusterMarkers zoom = false := Bool.eq_false_iff.mpr hz
    have hccA : createClusters d ph zoom (l1 ++ bad :: l2) =
        (l1 ++ bad :: l2).map spreadArea := by
      unfold createClusters
      rw [hzf]
      rfl
    have hccB : createClusters d ph zoom (l1 ++ l2) =
        (l1 ++ l2).map spreadArea := by
      unfold createClusters
      rw [hzf]
      rfl
    unfold addAreaMarkers
    rw [hccA, hccB]
    rw [show (l1 ++ bad :: l2).map spreadArea =
        l1.map spreadArea ++ [spreadArea bad] ++ l2.map spreadArea by simp]
    rw [show (l1 ++ l2).map spreadArea =
        l1.map spreadArea ++ l2.map spreadArea by simp]
    exact filterMap_markerFor_skip_invisible d ph zoom bad hbad _ _
  case pos =>
    set m : ℕ := l1.length with hm
    set X : List (ℕ × Area) := withIndices 0 l1 with hX
    set YA : List (ℕ × Area) := withIndices (m + 1) l2 with hYA
    set YB : List (ℕ × Area) := withIndices m l2 with hYB
    set φ : ℕ → ℕ := fun j => if j < m then j else j + 1 with hphi
    have hφ : Function.Injective φ := by
      intro a b hab
      by_cases ha : a < m <;> by_cases hb : b < m <;>
        simp only [hphi, ha, hb, if_pos, if_neg, if_true, if_false] at hab <;>
        omega
    have hXfix : ∀ x ∈ X, φ x.1 = x.1 := by
      intro x hx
      have hb := fst_bounds_of_mem_withIndices hx
      have hlt : x.1 < m := by omega
      simp [hphi, hlt]
    have hXmap : X.map (Prod.map φ id) = X := map_prodmap_id_of_fixed φ X hXfix
    have hYmap : YB.map (Prod.map φ id) = YA := by
      refine withIndices_map_succ φ l2 m ?_
      intro k hk
      simp only [hphi]
      rw [if_neg (by omega)]
    have hA : withIndices 0 (l1 ++ bad :: l2) = X ++ (m, bad) :: YA := by
      rw [withIndices_append]
      simp only [Nat.zero_add]
      rfl
    have hB : withIndices 0 (l1 ++ l2) = X ++ YB := by
      rw [withIndices_append]
      simp only [Nat.zero_add]
    have hmapB : (X ++ YB).map (Prod.map φ id) = X ++ YA := by
      rw [List.map_append, hXmap, hYmap]
    have hrel := foldl_clusterStep_relabel d ph φ hφ (X ++ YB) (X ++ YB) [] []
    simp only [List.map_nil] at hrel
    rw [hmapB] at hrel
    have hBrun := congrArg Prod.fst hrel
    have hmX : ∀ x ∈ X, x.1 ≠ m := by
      intro x hx
      have hb := fst_bounds_of_mem_withIndices hx
      omega
    have hmYA : ∀ x ∈ YA, x.1 ≠ m := by
      intro x hx
      have hb := fst_bounds_of_mem_withIndices hx
      omega
    have hmall : m ∉ (X ++ YA).map Prod.fst := by
      rw [List.map_append, List.mem_append]
      push_neg
      constructor
      · intro h
        obtain ⟨x, hx, hx1⟩ := List.mem_map.mp h
        exact hmX x hx hx1
      · intro h
        obtain ⟨x, hx, hx1⟩ := List.mem_map.mp h
        exact hmYA x hx hx1
    have hs1m : m ∉ (X.foldl (clusterStep d ph (X ++ YA)) ([], [])).2 :=
      m_not_in_foldl_processed d ph (X ++ YA) m hmall X ([], []) hmX
        (by simp)
    have hstepbad : clusterStep d ph (X ++ YA)
        (X.foldl (clusterStep d ph (X ++ YA)) ([], [])) (m, bad) =
        ((X.foldl (clusterStep d ph (X ++ YA)) ([], [])).1 ++ [spreadArea bad],
         (X.foldl (clusterStep d ph (X ++ YA)) ([], [])).2 ++ [m]) := by
      have hnb : nearbyOf d (X ++ YA)
          (X.foldl (clusterStep d ph (X ++ YA)) ([], [])).2 m bad = [] := by
        unfold nearbyOf
        rw [List.filter_eq_nil_iff]
        intro x _
        rw [distLE_left_none hbad]
        simp
      rw [clusterStep_of_not_mem d ph (X ++ YA)
        (X.foldl (clusterStep d ph (X ++ YA)) ([], [])) (m, bad) hs1m]
      rw [hnb]
      simp
    have hArun : (X ++ (m, bad) :: YA).foldl
        (clusterStep d ph (X ++ (m, bad) :: YA)) ([], []) =
        (X ++ (m, bad) :: YA).foldl (clusterStep d ph (X ++ YA)) ([], []) :=
      List.foldl_ext _ _ _
        (fun acc b _ => clusterStep_erase_invisible d ph X YA m bad hbad acc b)
    have hE3 : ((YA.foldl (clusterStep d ph (X ++ YA))
        ([], (X.foldl (clusterStep d ph (X ++ YA)) ([], [])).2 ++ [m])).1) =
        ((YA.foldl (clusterStep d ph (X ++ YA))
          ([], (X.foldl (clusterStep d ph (X ++ YA)) ([], [])).2)).1) := by
      refine foldl_clusters_congr_processed d ph (X ++ YA) m hmall YA [] _ _
        hmYA ?_
      intro j hj
      rw [List.mem_append, List.mem_singleton]
      simp [hj]
    have hccA : createClusters d ph zoom (l1 ++ bad :: l2) =
        (X.foldl (clusterStep d ph (X ++ YA)) ([], [])).1 ++
          ([spreadArea bad] ++
            (YA.foldl (clusterStep d ph (X ++ YA))
              ([], (X.foldl (clusterStep d ph (X ++ YA)) ([], [])).2)).1) := by
      unfold createClusters
      rw [hz]
      dsimp only
      rw [hA]
      calc ((X ++ (m, bad) :: YA).foldl
            (clusterStep d ph (X ++ (m, bad) :: YA)) ([], [])).1
          = ((X ++ (m, bad) :: YA).foldl
              (clusterStep d ph (X ++ YA)) ([], [])).1 := by rw [hArun]
        _ = (((m, bad) :: YA).foldl (clusterStep d ph (X ++ YA))
              (X.foldl (clusterStep d ph (X ++ YA)) ([], []))).1 := by
            rw [List.foldl_append]
        _ = (YA.foldl (clusterStep d ph (X ++ YA))
              ((X.foldl (clusterStep d ph (X ++ YA)) ([], [])).1 ++
                  [spreadArea bad],
               (X.foldl (clusterStep d ph (X ++ YA)) ([], [])).2 ++ [m])).1 := by
            rw [List.foldl_cons, hstepbad]
        _ = ((X.foldl (clusterStep d ph (X ++ YA)) ([], [])).1 ++
              [spreadArea bad]) ++
              (YA.foldl (clusterStep d ph (X ++ YA))
                ([], (X.foldl (clusterStep d ph (X ++ YA)) ([], [])).2 ++
                  [m])).1 := by
            rw [foldl_clusterStep_acc]
        _ = ((X.foldl (clusterStep d ph (X ++ YA)) ([], [])).1 ++
              [spreadArea bad]) ++
              (YA.foldl (clusterStep d ph (X ++ YA))
                ([], (X.foldl (clusterStep d ph (X ++ YA)) ([], [])).2)).1 := by
            rw [hE3]
        _ = _ := by rw [List.append_assoc]
    have hccB : createClusters d ph zoom (l1 ++ l2) =
        (X.foldl (clusterStep d ph (X ++ YA)) ([], [])).1 ++
          (YA.foldl (clusterStep d ph (X ++ YA))
            ([], (X.foldl (clusterStep d ph (X ++ YA)) ([], [])).2)).1 := by
      unfold createClusters
      rw [hz]
      dsimp only
      rw [hB]
      calc ((X ++ YB).foldl (clusterStep d ph (X ++ YB)) ([], [])).1
          = ((X ++ YA).foldl (clusterStep d ph (X ++ YA)) ([], [])).1 :=
            hBrun.symm
        _ = (YA.foldl (clusterStep d ph (X ++ YA))
              (X.foldl (clusterStep d ph (X ++ YA)) ([], []))).1 := by
            rw [List.foldl_append]
        _ = (YA.foldl (clusterStep d ph (X ++ YA))
              ((X.foldl (clusterStep d ph (X ++ YA)) ([], [])).1,
               (X.foldl (clusterStep d ph (X ++ YA)) ([], [])).2)).1 := rfl
        _ = _ := by rw [foldl_clusterStep_acc]
    unfold addAreaMarkers
    rw [hccA, hccB, ← List.append_assoc]
    exact filterMap_markerFor_skip_invisible d ph zoom bad hbad _ _

/-- C9 witness: a concrete invalid area inserted before one valid area. -/
theorem C9_invalid_area_witness :
    (areaNoLat.center_lat = none ∨ areaNoLat.center_lng = none) ∧
    addAreaMarkers discreteDist [photoAt] 10 ([] ++ areaNoLat :: [areaA]) =
      addAreaMarkers discreteDist [photoAt] 10 ([] ++ [areaA]) :=
  ⟨by decide,
    C9_invalid_area_transparent discreteDist [photoAt] 10 [] [areaA] areaNoLat
      (by decide)⟩
